import Mathlib

/-!
Verification of the Magnetic Shuttle background service worker
(`src/background.js`, `src/unnamed/part_000`).

The module is embedded shallowly:

* The host browser (tab query / update / move primitives and the badge
  sink) is an abstract record `Host σ` of possibly-failing operations over
  an opaque host state `σ`; errors carry the raw message string, and the
  transient drag-lock error is recognised exactly as the source does, by
  searching the message for the substring "user may be dragging".
* Every host call issued by the worker is recorded in an `Event` trace, in
  order, including calls that fail; `executeWithRetry`,
  `processFinalPosition` and `togglePinActiveTab` return their result
  together with the final host state and the trace.
* The zone-classification decision embedded in `processFinalPosition` is
  factored out as the pure function `classifyPosition`.
* The debounce machinery (`chrome.tabs.onMoved` / `onRemoved` handlers and
  the `dragDebounce` map) is a state machine over rational time:
  `stepEvent` processes one incoming notification, firing beforehand every
  pending timer whose deadline lies strictly before the notification's
  arrival time, and `runTimeline` processes a chronological list of
  notifications and finally lets all remaining timers fire.
-/

namespace MagneticShuttle

/-- A tab as returned by `chrome.tabs.get` / `chrome.tabs.query`: the
fields the worker reads (`id`, `windowId`, `index`, `pinned`). -/
structure TabInfo where
  id : Nat
  windowId : Nat
  index : Int
  pinned : Bool
deriving Repr, DecidableEq

/-- The two actions `executeWithRetry` is invoked with (the source passes
the strings "pin" and "unpin"). -/
inductive Action where
  | pin
  | unpin
deriving Repr, DecidableEq

/-- One host call issued by the worker, as recorded in the trace.  A call
that fails is still recorded (it was issued); `wait` records the backoff
sleep between retry attempts. -/
inductive Event where
  | getTab (tabId : Nat)
  | pinnedCount (windowId : Nat)
  | setPinned (tabId : Nat) (p : Bool)
  | move (tabId : Nat) (index : Int)
  | badge (text : String) (color : String)
  | wait (d : ℚ)
  | queryActive
deriving Repr, DecidableEq

/-- Result of one `try` block: either the block ran to a `return true`, or
some host call threw, leaving the host state reached so far. -/
inductive TryResult (σ : Type) where
  | success (s : σ)
  | failure (msg : String) (s : σ)
deriving Repr

/-- The abstract host environment (Chrome's tab API surface the worker
consumes).  Each operation may fail with an error message; a failing call
leaves the state it was given. `queryActive` models
`chrome.tabs.query({active: true, currentWindow: true})` yielding its
first element, or nothing. -/
structure Host (σ : Type) where
  getTab : σ → Nat → Except String (TabInfo × σ)
  getPinnedCount : σ → Nat → Except String (Nat × σ)
  updatePinned : σ → Nat → Bool → Except String σ
  moveTab : σ → Nat → Int → Except String σ
  flashBadge : σ → String → String → Except String σ
  queryActive : σ → Option (TabInfo × σ)

/-- Does the character list `s` start with the character list `pat`? -/
def charsStartWith : List Char → List Char → Bool
  | _, [] => true
  | [], _ :: _ => false
  | c :: cs, d :: ds => c = d && charsStartWith cs ds

/-- Does the character list `s` contain `pat` as a contiguous run? -/
def charsContain : List Char → List Char → Bool
  | [], pat => pat.isEmpty
  | c :: cs, pat => charsStartWith (c :: cs) pat || charsContain cs pat

/-- The source's transient-error test:
`error.message.includes('user may be dragging')`. -/
def isDragLockError (msg : String) : Bool :=
  charsContain msg.data "user may be dragging".data

/-- Backoff before the next attempt:
`Math.min(100 * Math.pow(1.5, attempt), 2000)`. -/
def backoffDelay (attempt : Nat) : ℚ :=
  min (100 * (3 / 2 : ℚ) ^ attempt) 2000

/-- The `maxRetries` default of `executeWithRetry`. -/
def defaultMaxRetries : Nat := 15

/-!
## Retry Executor

`executeWithRetry(tabId, action, targetIndex = null, maxRetries = 15)`:
up to `maxRetries` iterations, each re-fetching the tab and applying the
action; a throw from any host call lands in the `catch`, which sleeps
`backoffDelay attempt` and retries on the drag-lock message and returns
`false` on anything else; after the loop, `false`.
-/

/-- One iteration of the `try` block of `executeWithRetry`, returning the
outcome together with the host calls issued (failing call included). -/
def attemptOnce {σ : Type} (h : Host σ) (tabId : Nat) (action : Action)
    (targetIndex : Option Int) (s : σ) : TryResult σ × List Event :=
  match h.getTab s tabId with
  | .error e => (.failure e s, [Event.getTab tabId])
  | .ok (tab, s1) =>
    match action, tab.pinned with
    | .pin, false =>
      match h.updatePinned s1 tabId true with
      | .error e => (.failure e s1, [Event.getTab tabId, Event.setPinned tabId true])
      | .ok s2 =>
        match targetIndex with
        | some ti =>
          match h.getPinnedCount s2 tab.windowId with
          | .error e =>
            (.failure e s2,
              [Event.getTab tabId, Event.setPinned tabId true,
                Event.pinnedCount tab.windowId])
          | .ok (pc, s3) =>
            match h.moveTab s3 tabId (min ti ((pc : Int) - 1)) with
            | .error e =>
              (.failure e s3,
                [Event.getTab tabId, Event.setPinned tabId true,
                  Event.pinnedCount tab.windowId,
                  Event.move tabId (min ti ((pc : Int) - 1))])
            | .ok s4 =>
              match h.flashBadge s4 "📌" "#4CAF50" with
              | .error e =>
                (.failure e s4,
                  [Event.getTab tabId, Event.setPinned tabId true,
                    Event.pinnedCount tab.windowId,
                    Event.move tabId (min ti ((pc : Int) - 1)),
                    Event.badge "📌" "#4CAF50"])
              | .ok s5 =>
                (.success s5,
                  [Event.getTab tabId, Event.setPinned tabId true,
                    Event.pinnedCount tab.windowId,
                    Event.move tabId (min ti ((pc : Int) - 1)),
                    Event.badge "📌" "#4CAF50"])
        | none =>
          match h.moveTab s2 tabId 0 with
          | .error e =>
            (.failure e s2,
              [Event.getTab tabId, Event.setPinned tabId true, Event.move tabId 0])
          | .ok s3 =>
            match h.flashBadge s3 "📌" "#4CAF50" with
            | .error e =>
              (.failure e s3,
                [Event.getTab tabId, Event.setPinned tabId true,
                  Event.move tabId 0, Event.badge "📌" "#4CAF50"])
            | .ok s4 =>
              (.success s4,
                [Event.getTab tabId, Event.setPinned tabId true,
                  Event.move tabId 0, Event.badge "📌" "#4CAF50"])
    | .unpin, true =>
      match h.getPinnedCount s1 tab.windowId with
      | .error e =>
        (.failure e s1, [Event.getTab tabId, Event.pinnedCount tab.windowId])
      | .ok (pc, s2) =>
        match h.updatePinned s2 tabId false with
        | .error e =>
          (.failure e s2,
            [Event.getTab tabId, Event.pinnedCount tab.windowId,
              Event.setPinned tabId false])
        | .ok s3 =>
          match targetIndex with
          | some ti =>
            match h.moveTab s3 tabId (max ((pc : Int) - 1) ti) with
            | .error e =>
              (.failure e s3,
                [Event.getTab tabId, Event.pinnedCount tab.windowId,
                  Event.setPinned tabId false,
                  Event.move tabId (max ((pc : Int) - 1) ti)])
            | .ok s4 =>
              match h.flashBadge s4 "📤" "#FF9800" with
              | .error e =>
                (.failure e s4,
                  [Event.getTab tabId, Event.pinnedCount tab.windowId,
                    Event.setPinned tabId false,
                    Event.move tabId (max ((pc : Int) - 1) ti),
                    Event.badge "📤" "#FF9800"])
              | .ok s5 =>
                (.success s5,
                  [Event.getTab tabId, Event.pinnedCount tab.windowId,
                    Event.setPinned tabId false,
                    Event.move tabId (max ((pc : Int) - 1) ti),
                    Event.badge "📤" "#FF9800"])
          | none =>
            match h.flashBadge s3 "📤" "#FF9800" with
            | .error e =>
              (.failure e s3,
                [Event.getTab tabId, Event.pinnedCount tab.windowId,
                  Event.setPinned tabId false, Event.badge "📤" "#FF9800"])
            | .ok s4 =>
              (.success s4,
                [Event.getTab tabId, Event.pinnedCount tab.windowId,
                  Event.setPinned tabId false, Event.badge "📤" "#FF9800"])
    | _, _ => (.success s1, [Event.getTab tabId])

/-- The retry loop of `executeWithRetry`: `remaining` attempts left,
`attempt` the current zero-based attempt number, `tr` the trace so far.
A drag-lock failure sleeps `backoffDelay attempt` and retries; any other
failure returns `false` at once; an exhausted loop returns `false`. -/
def retryLoop {σ : Type} (h : Host σ) (tabId : Nat) (action : Action)
    (targetIndex : Option Int) :
    Nat → Nat → σ → List Event → Bool × σ × List Event
  | 0, _, s, tr => (false, s, tr)
  | remaining + 1, attempt, s, tr =>
    match attemptOnce h tabId action targetIndex s with
    | (.success s1, evs) => (true, s1, tr ++ evs)
    | (.failure msg s1, evs) =>
      if isDragLockError msg then
        retryLoop h tabId action targetIndex remaining (attempt + 1) s1
          (tr ++ evs ++ [Event.wait (backoffDelay attempt)])
      else (false, s1, tr ++ evs)

/-- `executeWithRetry`: run the retry loop from attempt 0 with an empty
trace. -/
def executeWithRetry {σ : Type} (h : Host σ) (tabId : Nat) (action : Action)
    (targetIndex : Option Int) (maxRetries : Nat) (s : σ) :
    Bool × σ × List Event :=
  retryLoop h tabId action targetIndex maxRetries 0 s []

/-- Number of attempts recorded in a trace: each attempt issues exactly
one `chrome.tabs.get` call, so attempts are `getTab` events. -/
def countAttempts (tr : List Event) : Nat :=
  tr.countP fun e =>
    match e with
    | Event.getTab _ => true
    | _ => false

/-- Total backoff wait recorded in a trace. -/
def totalWait (tr : List Event) : ℚ :=
  (tr.map fun e =>
    match e with
    | Event.wait d => d
    | _ => 0).sum

/-- The trace produced by `r` consecutive attempts that all fail on the
drag-lock error at `getTab`, starting from attempt number `a`. -/
def lockedTrace (tabId : Nat) : Nat → Nat → List Event
  | _, 0 => []
  | a, r + 1 =>
    Event.getTab tabId :: Event.wait (backoffDelay a) :: lockedTrace tabId (a + 1) r

/-!
## Zone Classifier

`processFinalPosition` decides, from the tab's settled `index`, its
`pinned` flag and the window's pinned count, whether to pin, unpin or do
nothing.  That decision is pure; it is factored out here verbatim.
-/

/-- Classification outcome of a settled drag position. -/
inductive Classification where
  | Pin (targetIndex : Int)
  | Unpin (targetIndex : Int)
  | NoAction
deriving Repr, DecidableEq

/-- The zone-classification decision of `processFinalPosition`:
pin when `!tab.pinned` and (`pinnedCount === 0 && tab.index === 0` or
`pinnedCount > 0 && tab.index === pinnedCount`); unpin when `tab.pinned`,
`pinnedCount >= 1` and `tab.index >= Math.max(0, pinnedCount - 2)`;
otherwise no action. -/
def classifyPosition (pinned : Bool) (index : Int) (pinnedCount : Nat) : Classification :=
  if pinned = false then
    let isFirstPin := pinnedCount = 0 ∧ index = 0
    let atExactBoundary := 0 < pinnedCount ∧ index = (pinnedCount : Int)
    if isFirstPin ∨ atExactBoundary then Classification.Pin index
    else Classification.NoAction
  else
    if 1 ≤ pinnedCount ∧ max 0 ((pinnedCount : Int) - 2) ≤ index then
      Classification.Unpin index
    else Classification.NoAction

/-- C1: for an unpinned tab, the classifier answers `Pin(index)` exactly
when `pinnedCount = 0 ∧ index = 0` or `pinnedCount > 0 ∧
index = pinnedCount`, and `NoAction` at every other unpinned position; in
particular `(0, 0)` classifies as `Pin 0` and `(3, 3)` as `Pin 3`. -/
theorem pin_zone_characterisation :
    (∀ (index : Int) (pc : Nat),
        classifyPosition false index pc
          = if (pc = 0 ∧ index = 0) ∨ (0 < pc ∧ index = (pc : Int))
            then Classification.Pin index else Classification.NoAction)
    ∧ classifyPosition false 0 0 = Classification.Pin 0
    ∧ classifyPosition false 3 3 = Classification.Pin 3 := by
  refine ⟨fun index pc => ?_, by decide, by decide⟩
  simp only [classifyPosition]
  norm_num

/-- C2: for a pinned tab, the classifier answers `Unpin(index)` exactly
when `pinnedCount ≥ 1` and `index ≥ max 0 (pinnedCount - 2)`, and
`NoAction` otherwise; in particular `(pc = 3, index = 2)` classifies as
`Unpin 2` and `(pc = 3, index = 0)` as `NoAction`. -/
theorem unpin_zone_characterisation :
    (∀ (index : Int) (pc : Nat),
        classifyPosition true index pc
          = if 1 ≤ pc ∧ max 0 ((pc : Int) - 2) ≤ index
            then Classification.Unpin index else Classification.NoAction)
    ∧ classifyPosition true 2 3 = Classification.Unpin 2
    ∧ classifyPosition true 0 3 = Classification.NoAction := by
  refine ⟨fun index pc => ?_, by decide, by decide⟩
  simp only [classifyPosition]
  norm_num

/-!
## Concrete hosts used to exercise the executor
-/

/-- A host whose tab 1 is pinned at index 1 in window 0, with 3 pinned
tabs; every mutation succeeds. -/
def pinnedTabHost : Host Unit where
  getTab := fun s tabId => .ok (⟨tabId, 0, 1, true⟩, s)
  getPinnedCount := fun s _ => .ok (3, s)
  updatePinned := fun s _ _ => .ok s
  moveTab := fun s _ _ => .ok s
  flashBadge := fun s _ _ => .ok s
  queryActive := fun _ => none

/-- A host whose tab 1 is unpinned at index 3, with 4 pinned tabs after
pinning; every mutation succeeds. -/
def unpinnedTabHost : Host Unit where
  getTab := fun s tabId => .ok (⟨tabId, 0, 3, false⟩, s)
  getPinnedCount := fun s _ => .ok (4, s)
  updatePinned := fun s _ _ => .ok s
  moveTab := fun s _ _ => .ok s
  flashBadge := fun s _ _ => .ok s
  queryActive := fun _ => none

/-- A host on which every tab fetch fails with the transient drag-lock
message. -/
def alwaysDraggingHost : Host Unit where
  getTab := fun _ _ => .error "user may be dragging"
  getPinnedCount := fun s _ => .ok (0, s)
  updatePinned := fun s _ _ => .ok s
  moveTab := fun s _ _ => .ok s
  flashBadge := fun s _ _ => .ok s
  queryActive := fun _ => none

/-- A host on which every tab fetch fails with a permanent error. -/
def permErrorHost : Host Unit where
  getTab := fun _ _ => .error "No tab with id"
  getPinnedCount := fun s _ => .ok (0, s)
  updatePinned := fun s _ _ => .ok s
  moveTab := fun s _ _ => .ok s
  flashBadge := fun s _ _ => .ok s
  queryActive := fun _ => none

/-!
## Retry Executor theorems
-/

/-- C3: unpin execution on a pinned tab reads the window's pinned count
before unpinning, sets pinned to false, then — when a target index was
supplied — moves the tab to `max (pinnedCount_before - 1) targetIndex`,
and does not move it otherwise; in both cases it flashes the
negative-polarity badge and returns success. -/
theorem unpin_execution {σ : Type} (h : Host σ) (tabId : Nat) (r : Nat)
    (s s1 : σ) (tab : TabInfo)
    (hget : h.getTab s tabId = Except.ok (tab, s1)) (hp : tab.pinned = true) :
    (∀ (ti : Int) (pc : Nat) (s2 s3 s4 s5 : σ),
        h.getPinnedCount s1 tab.windowId = Except.ok (pc, s2) →
        h.updatePinned s2 tabId false = Except.ok s3 →
        h.moveTab s3 tabId (max ((pc : Int) - 1) ti) = Except.ok s4 →
        h.flashBadge s4 "📤" "#FF9800" = Except.ok s5 →
        executeWithRetry h tabId Action.unpin (some ti) (r + 1) s
          = (true, s5,
              [Event.getTab tabId, Event.pinnedCount tab.windowId,
                Event.setPinned tabId false,
                Event.move tabId (max ((pc : Int) - 1) ti),
                Event.badge "📤" "#FF9800"]))
    ∧ (∀ (pc : Nat) (s2 s3 s4 : σ),
        h.getPinnedCount s1 tab.windowId = Except.ok (pc, s2) →
        h.updatePinned s2 tabId false = Except.ok s3 →
        h.flashBadge s3 "📤" "#FF9800" = Except.ok s4 →
        executeWithRetry h tabId Action.unpin none (r + 1) s
          = (true, s4,
              [Event.getTab tabId, Event.pinnedCount tab.windowId,
                Event.setPinned tabId false, Event.badge "📤" "#FF9800"])) := by
  constructor
  · intro ti pc s2 s3 s4 s5 hpc hupd hmove hbadge
    simp [executeWithRetry, retryLoop, attemptOnce, hget, hp, hpc, hupd, hmove, hbadge]
  · intro pc s2 s3 s4 hpc hupd hbadge
    simp [executeWithRetry, retryLoop, attemptOnce, hget, hp, hpc, hupd, hbadge]

/-- C3 witness: a concrete successful unpin with `pinnedCount = 3` and
`targetIndex = 1` moves the tab to `max (3 - 1) 1 = 2`. -/
theorem unpin_execution_witness :
    executeWithRetry pinnedTabHost 1 Action.unpin (some 1) 1 ()
      = (true, (),
          [Event.getTab 1, Event.pinnedCount 0, Event.setPinned 1 false,
            Event.move 1 (max ((3 : Int) - 1) 1), Event.badge "📤" "#FF9800"]) :=
  (unpin_execution pinnedTabHost 1 0 () () ⟨1, 0, 1, true⟩ rfl rfl).1
    1 3 () () () () rfl rfl rfl rfl

/-- C4: pin execution on an unpinned tab sets pinned to true, then moves
the tab to `min targetIndex (pinnedCount_after - 1)` where the pinned
count is re-read after pinning, or to index 0 when no target index was
supplied; it then flashes the positive badge and returns success. -/
theorem pin_execution {σ : Type} (h : Host σ) (tabId : Nat) (r : Nat)
    (s s1 : σ) (tab : TabInfo)
    (hget : h.getTab s tabId = Except.ok (tab, s1)) (hp : tab.pinned = false) :
    (∀ (ti : Int) (pc : Nat) (s2 s3 s4 s5 : σ),
        h.updatePinned s1 tabId true = Except.ok s2 →
        h.getPinnedCount s2 tab.windowId = Except.ok (pc, s3) →
        h.moveTab s3 tabId (min ti ((pc : Int) - 1)) = Except.ok s4 →
        h.flashBadge s4 "📌" "#4CAF50" = Except.ok s5 →
        executeWithRetry h tabId Action.pin (some ti) (r + 1) s
          = (true, s5,
              [Event.getTab tabId, Event.setPinned tabId true,
                Event.pinnedCount tab.windowId,
                Event.move tabId (min ti ((pc : Int) - 1)),
                Event.badge "📌" "#4CAF50"]))
    ∧ (∀ (s2 s3 s4 : σ),
        h.updatePinned s1 tabId true = Except.ok s2 →
        h.moveTab s2 tabId 0 = Except.ok s3 →
        h.flashBadge s3 "📌" "#4CAF50" = Except.ok s4 →
        executeWithRetry h tabId Action.pin none (r + 1) s
          = (true, s4,
              [Event.getTab tabId, Event.setPinned tabId true,
                Event.move tabId 0, Event.badge "📌" "#4CAF50"])) := by
  constructor
  · intro ti pc s2 s3 s4 s5 hupd hpc hmove hbadge
    simp [executeWithRetry, retryLoop, attemptOnce, hget, hp, hpc, hupd, hmove, hbadge]
  · intro s2 s3 s4 hupd hmove hbadge
    simp [executeWithRetry, retryLoop, attemptOnce, hget, hp, hupd, hmove, hbadge]

/-- C4 witness: a concrete successful pin with `targetIndex = 3` and 4
pinned tabs after pinning moves the tab to `min 3 (4 - 1) = 3`. -/
theorem pin_execution_witness :
    executeWithRetry unpinnedTabHost 1 Action.pin (some 3) 1 ()
      = (true, (),
          [Event.getTab 1, Event.setPinned 1 true, Event.pinnedCount 0,
            Event.move 1 (min 3 ((4 : Int) - 1)), Event.badge "📌" "#4CAF50"]) :=
  (pin_execution unpinnedTabHost 1 0 () () ⟨1, 0, 3, false⟩ rfl rfl).1
    3 4 () () () () rfl rfl rfl rfl

/-- C7: a tab already in the desired pinned state makes `executeWithRetry`
return success on the first attempt, with the lone `getTab` read as its
whole trace — no pinned-flag update, no move, no badge. -/
theorem already_in_state {σ : Type} (h : Host σ) (tabId : Nat)
    (ti : Option Int) (r : Nat) (s s1 : σ) (tab : TabInfo)
    (hget : h.getTab s tabId = Except.ok (tab, s1)) :
    (tab.pinned = true →
        executeWithRetry h tabId Action.pin ti (r + 1) s
          = (true, s1, [Event.getTab tabId]))
    ∧ (tab.pinned = false →
        executeWithRetry h tabId Action.unpin ti (r + 1) s
          = (true, s1, [Event.getTab tabId])) := by
  constructor
  · intro hp
    simp [executeWithRetry, retryLoop, attemptOnce, hget, hp]
  · intro hp
    simp [executeWithRetry, retryLoop, attemptOnce, hget, hp]

/-- C7 witness: pin execution on the already-pinned tab of
`pinnedTabHost` succeeds at once, issuing only the tab read. -/
theorem already_in_state_witness :
    executeWithRetry pinnedTabHost 1 Action.pin none 1 ()
      = (true, (), [Event.getTab 1]) :=
  (already_in_state pinnedTabHost 1 none 0 () () ⟨1, 0, 1, true⟩ rfl).1 rfl

/-- C6: a drag-lock failure of an attempt appends a
`min (100 * 1.5 ^ attempt) 2000` backoff wait and proceeds to the next
attempt; any other failure makes the loop return failure at once, with no
further host calls past those of the failed attempt. -/
theorem transient_backoff_permanent_abort {σ : Type} (h : Host σ)
    (tabId : Nat) (action : Action) (ti : Option Int) (r attempt : Nat)
    (s s1 : σ) (tr evs : List Event) (msg : String)
    (hatt : attemptOnce h tabId action ti s = (TryResult.failure msg s1, evs)) :
    (isDragLockError msg = true →
        retryLoop h tabId action ti (r + 1) attempt s tr
          = retryLoop h tabId action ti r (attempt + 1) s1
              (tr ++ evs ++ [Event.wait (min (100 * (3 / 2 : ℚ) ^ attempt) 2000)]))
    ∧ (isDragLockError msg = false →
        retryLoop h tabId action ti (r + 1) attempt s tr = (false, s1, tr ++ evs)) := by
  constructor
  · intro hmsg
    simp [retryLoop, hatt, hmsg, backoffDelay]
  · intro hmsg
    simp [retryLoop, hatt, hmsg]

/-- C6 witness: on `permErrorHost` the first attempt fails permanently and
the loop stops at once with only the failed read in its trace. -/
theorem transient_backoff_permanent_abort_witness :
    retryLoop permErrorHost 1 Action.pin none 3 0 () []
      = (false, (), [] ++ [Event.getTab 1]) :=
  (transient_backoff_permanent_abort permErrorHost 1 Action.pin none 2 0 () ()
      [] [Event.getTab 1] "No tab with id" rfl).2 (by decide)

/-- Under a host whose every tab fetch fails with the drag-lock message,
the retry loop consumes all remaining attempts, producing
`lockedTrace`. -/
theorem retryLoop_locked {σ : Type} (h : Host σ) (tabId : Nat)
    (action : Action) (ti : Option Int) (msg : String)
    (hget : ∀ s0, h.getTab s0 tabId = Except.error msg)
    (hmsg : isDragLockError msg = true) :
    ∀ (r a : Nat) (s : σ) (tr : List Event),
      retryLoop h tabId action ti r a s tr = (false, s, tr ++ lockedTrace tabId a r) := by
  intro r
  induction r with
  | zero => intro a s tr; simp [retryLoop, lockedTrace]
  | succ n ih =>
    intro a s tr
    simp [retryLoop, attemptOnce, hget, hmsg, lockedTrace, ih]

/-- Each all-locked attempt issues exactly one tab read. -/
theorem countAttempts_lockedTrace (tabId : Nat) :
    ∀ (r a : Nat), countAttempts (lockedTrace tabId a r) = r := by
  intro r
  induction r with
  | zero => intro a; simp [lockedTrace, countAttempts]
  | succ n ih =>
    intro a
    simp [lockedTrace, countAttempts, List.countP_cons]
    simpa [countAttempts] using ih (a + 1)

/-- Total wait of the all-locked trace is the sum of the backoff
delays of its attempt numbers. -/
theorem totalWait_lockedTrace (tabId : Nat) :
    ∀ (r a : Nat),
      totalWait (lockedTrace tabId a r) = ∑ i ∈ Finset.range r, backoffDelay (a + i) := by
  intro r
  induction r with
  | zero => intro a; simp [lockedTrace, totalWait]
  | succ n ih =>
    intro a
    have h1 : totalWait (lockedTrace tabId a (n + 1))
        = backoffDelay a + totalWait (lockedTrace tabId (a + 1) n) := by
      simp [lockedTrace, totalWait]
    rw [h1, ih (a + 1), Finset.sum_range_succ']
    have h2 : ∀ i : Nat, a + 1 + i = a + (i + 1) := fun i => by omega
    simp only [h2, Nat.add_zero]
    exact add_comm _ _

/-- C5: when every attempt raises the transient drag-lock error,
`executeWithRetry` returns failure after exactly `maxRetries` attempts,
and the total backoff wait equals
`∑ i < maxRetries, min (100 * 1.5 ^ i) 2000`. -/
theorem retry_exhaustion {σ : Type} (h : Host σ) (tabId : Nat)
    (action : Action) (ti : Option Int) (maxRetries : Nat) (s : σ) (msg : String)
    (hget : ∀ s0, h.getTab s0 tabId = Except.error msg)
    (hmsg : isDragLockError msg = true) :
    (executeWithRetry h tabId action ti maxRetries s).1 = false
    ∧ countAttempts (executeWithRetry h tabId action ti maxRetries s).2.2 = maxRetries
    ∧ totalWait (executeWithRetry h tabId action ti maxRetries s).2.2
        = ∑ i ∈ Finset.range maxRetries, min (100 * (3 / 2 : ℚ) ^ i) 2000 := by
  have hl := retryLoop_locked h tabId action ti msg hget hmsg maxRetries 0 s []
  refine ⟨?_, ?_, ?_⟩
  · simp [executeWithRetry, hl]
  · simp [executeWithRetry, hl, countAttempts_lockedTrace]
  · simp [executeWithRetry, hl, totalWait_lockedTrace, backoffDelay]

/-- C5 witness: on `alwaysDraggingHost` with `maxRetries = 2` the executor
fails after 2 attempts with total wait `100 + 150`. -/
theorem retry_exhaustion_witness :
    (executeWithRetry alwaysDraggingHost 1 Action.pin none 2 ()).1 = false
    ∧ countAttempts (executeWithRetry alwaysDraggingHost 1 Action.pin none 2 ()).2.2 = 2
    ∧ totalWait (executeWithRetry alwaysDraggingHost 1 Action.pin none 2 ()).2.2
        = ∑ i ∈ Finset.range 2, min (100 * (3 / 2 : ℚ) ^ i) 2000 :=
  retry_exhaustion alwaysDraggingHost 1 Action.pin none 2 () "user may be dragging"
    (fun _ => rfl) (by decide)

/-!
## Final-position handler and Toggle Command
-/

/-- `processFinalPosition`: fetch the tab and the window's pinned count
(any fetch error is swallowed), classify the settled position, and on a
pin/unpin classification run `executeWithRetry` with the classified target
index and the default `maxRetries`. -/
def processFinalPosition {σ : Type} (h : Host σ) (tabId : Nat) (s : σ) :
    σ × List Event :=
  match h.getTab s tabId with
  | .error _ => (s, [Event.getTab tabId])
  | .ok (tab, s1) =>
    match h.getPinnedCount s1 tab.windowId with
    | .error _ => (s1, [Event.getTab tabId, Event.pinnedCount tab.windowId])
    | .ok (pc, s2) =>
      match classifyPosition tab.pinned tab.index pc with
      | .Pin idx =>
        let r := executeWithRetry h tabId Action.pin (some idx) defaultMaxRetries s2
        (r.2.1, Event.getTab tabId :: Event.pinnedCount tab.windowId :: r.2.2)
      | .Unpin idx =>
        let r := executeWithRetry h tabId Action.unpin (some idx) defaultMaxRetries s2
        (r.2.1, Event.getTab tabId :: Event.pinnedCount tab.windowId :: r.2.2)
      | .NoAction => (s2, [Event.getTab tabId, Event.pinnedCount tab.windowId])

/-- `togglePinActiveTab`: query the active tab of the current window;
return at once when there is none; otherwise flip its pinned flag and
flash the matching badge.  No retry, no classification, no move. -/
def togglePinActiveTab {σ : Type} (h : Host σ) (s : σ) : TryResult σ × List Event :=
  match h.queryActive s with
  | none => (.success s, [Event.queryActive])
  | some (tab, s1) =>
    if tab.pinned then
      match h.updatePinned s1 tab.id false with
      | .error e => (.failure e s1, [Event.queryActive, Event.setPinned tab.id false])
      | .ok s2 =>
        match h.flashBadge s2 "📤" "#FF9800" with
        | .error e =>
          (.failure e s2,
            [Event.queryActive, Event.setPinned tab.id false,
              Event.badge "📤" "#FF9800"])
        | .ok s3 =>
          (.success s3,
            [Event.queryActive, Event.setPinned tab.id false,
              Event.badge "📤" "#FF9800"])
    else
      match h.updatePinned s1 tab.id true with
      | .error e => (.failure e s1, [Event.queryActive, Event.setPinned tab.id true])
      | .ok s2 =>
        match h.flashBadge s2 "📌" "#4CAF50" with
        | .error e =>
          (.failure e s2,
            [Event.queryActive, Event.setPinned tab.id true,
              Event.badge "📌" "#4CAF50"])
        | .ok s3 =>
          (.success s3,
            [Event.queryActive, Event.setPinned tab.id true,
              Event.badge "📌" "#4CAF50"])

/-- C10: when the active-tab query returns no tab, the Toggle Command
returns at once, issuing no pinned-state update, no move and no badge —
its whole trace is the query. -/
theorem toggle_no_active_tab {σ : Type} (h : Host σ) (s : σ)
    (hq : h.queryActive s = none) :
    togglePinActiveTab h s = (TryResult.success s, [Event.queryActive]) := by
  simp [togglePinActiveTab, hq]

/-- C10 witness: on `pinnedTabHost` the active-tab query is empty and the
toggle is a no-op. -/
theorem toggle_no_active_tab_witness :
    togglePinActiveTab pinnedTabHost () = (TryResult.success (), [Event.queryActive]) :=
  toggle_no_active_tab pinnedTabHost () rfl

/-!
## Drag Debouncer

The `dragDebounce` map and the `onMoved` / `onRemoved` listeners, as a
state machine over rational time.  `pending` holds at most one entry
`(tabId, deadline)` per tab; an incoming notification at time `t` first
lets every pending timer with `deadline < t` fire (recording the tab, the
fire time — its deadline — and the position observed then), exactly as the
single-threaded event loop would have run those callbacks before `t`.  A
move notification then replaces the tab's pending entry with deadline
`t + DEBOUNCE_DELAY` (`clearTimeout` + `setTimeout`); a removal
notification discards the tab's entry if present.  `runTimeline` processes
a chronological list of notifications and finally lets every remaining
timer fire. -/

/-- The debounce window: 600 time units. -/
def DEBOUNCE_DELAY : ℚ := 600

/-- Incoming host notifications handled by the debouncer. -/
inductive InEvent where
  | moved (tabId : Nat)
  | removed (tabId : Nat)
deriving Repr, DecidableEq

/-- Debouncer state: pending timers (tab, deadline) plus the log of fired
classification passes (tab, fire time, position observed at fire time). -/
@[ext]
structure DebounceState where
  pending : List (Nat × ℚ)
  fired : List (Nat × ℚ × Int)
deriving Repr, DecidableEq

/-- The empty debouncer. -/
def initDebounce : DebounceState := ⟨[], []⟩

/-- Fire every pending timer whose deadline lies strictly before `now`. -/
def fireDue (observe : ℚ → Int) (now : ℚ) (s : DebounceState) : DebounceState :=
  { pending := s.pending.filter fun p => decide (¬ p.2 < now),
    fired := s.fired
      ++ (s.pending.filter fun p => decide (p.2 < now)).map
          fun p => (p.1, p.2, observe p.2) }

/-- Process one notification arriving at time `t`. -/
def stepEvent (observe : ℚ → Int) (s : DebounceState) (t : ℚ) (e : InEvent) :
    DebounceState :=
  let s1 := fireDue observe t s
  match e with
  | .moved tabId =>
    { s1 with
        pending := (tabId, t + DEBOUNCE_DELAY) :: s1.pending.filter fun p => p.1 != tabId }
  | .removed tabId =>
    { s1 with pending := s1.pending.filter fun p => p.1 != tabId }

/-- Process a chronological list of notifications. -/
def procEvents (observe : ℚ → Int) (evs : List (ℚ × InEvent)) (s : DebounceState) :
    DebounceState :=
  evs.foldl (fun s2 te => stepEvent observe s2 te.1 te.2) s

/-- Let every remaining timer fire (time runs out past all deadlines). -/
def flushAll (observe : ℚ → Int) (s : DebounceState) : DebounceState :=
  { pending := [], fired := s.fired ++ s.pending.map fun p => (p.1, p.2, observe p.2) }

/-- Process a whole timeline: all notifications, then quiescence. -/
def runTimeline (observe : ℚ → Int) (evs : List (ℚ × InEvent)) (s : DebounceState) :
    DebounceState :=
  flushAll observe (procEvents observe evs s)

/-- The classification passes fired for tab `T`. -/
def firedFor (T : Nat) (s : DebounceState) : List (Nat × ℚ × Int) :=
  s.fired.filter fun f => f.1 == T

/-- A burst of move notifications for tab `T` at the given times. -/
def burstTimeline (T : Nat) (ts : List ℚ) : List (ℚ × InEvent) :=
  ts.map fun t => (t, InEvent.moved T)

/-- A burst step: while the next move for `T` arrives no later than the
pending deadline, the pending entry is replaced and nothing fires. -/
theorem procEvents_burst (observe : ℚ → Int) (T : Nat) :
    ∀ (ts : List ℚ) (prev : ℚ) (fr : List (Nat × ℚ × Int)),
      List.Chain' (fun a b => a ≤ b ∧ b ≤ a + DEBOUNCE_DELAY) (prev :: ts) →
      procEvents observe (burstTimeline T ts) ⟨[(T, prev + DEBOUNCE_DELAY)], fr⟩
        = ⟨[(T, ts.getLastD prev + DEBOUNCE_DELAY)], fr⟩ := by
  intro ts
  induction ts with
  | nil => intro prev fr _; simp [procEvents, burstTimeline]
  | cons t ts ih =>
    intro prev fr hch
    rcases List.chain'_cons.mp hch with ⟨⟨hle, hwin⟩, hch2⟩
    have hstep : stepEvent observe ⟨[(T, prev + DEBOUNCE_DELAY)], fr⟩ t (InEvent.moved T)
        = ⟨[(T, t + DEBOUNCE_DELAY)], fr⟩ := by
      simp [stepEvent, fireDue, not_lt.mpr hwin]
    have hrec := ih t fr hch2
    simp only [burstTimeline, List.map_cons, procEvents, List.foldl_cons] at hrec ⊢
    rw [hstep, List.getLastD_cons]
    exact hrec

/-- C8: a burst of moves for tab `T`, each arriving within
`DEBOUNCE_DELAY` of the previous one, fires exactly one classification
pass, `DEBOUNCE_DELAY` after the last move, with the position observed at
that time; and every move notification replaces the tab's pending timer
with one due `DEBOUNCE_DELAY` later. -/
theorem debounce_coalescing (observe : ℚ → Int) (T : Nat) (t0 : ℚ) (rest : List ℚ)
    (hchain : List.Chain' (fun a b => a ≤ b ∧ b ≤ a + DEBOUNCE_DELAY) (t0 :: rest)) :
    (runTimeline observe (burstTimeline T (t0 :: rest)) initDebounce).fired
      = [(T, rest.getLastD t0 + DEBOUNCE_DELAY,
          observe (rest.getLastD t0 + DEBOUNCE_DELAY))]
    ∧ ∀ (s : DebounceState) (t : ℚ),
        (stepEvent observe s t (InEvent.moved T)).pending.filter (fun p => p.1 == T)
          = [(T, t + DEBOUNCE_DELAY)] := by
  constructor
  · have hfirst : stepEvent observe initDebounce t0 (InEvent.moved T)
        = ⟨[(T, t0 + DEBOUNCE_DELAY)], []⟩ := by
      simp [stepEvent, fireDue, initDebounce]
    have hrec := procEvents_burst observe T rest t0 [] hchain
    simp only [burstTimeline, List.map_cons, runTimeline, procEvents, List.foldl_cons]
    rw [hfirst]
    simp only [procEvents, burstTimeline] at hrec
    rw [hrec]
    simp [flushAll]
  · intro s t
    simp only [stepEvent, List.filter_cons]
    have hnil :
        ((fireDue observe t s).pending.filter fun p => p.1 != T).filter
            (fun p => p.1 == T) = [] := by
      rw [List.filter_filter]
      apply List.filter_eq_nil_iff.mpr
      intro a _
      simp [Bool.and_comm]
    simp [hnil]

/-- C8 witness: three moves for tab 7 at times 0, 100, 650 (gaps 100 and
550, both within the 600-unit window) fire exactly one pass at
650 + 600 = 1250. -/
theorem debounce_coalescing_witness :
    (runTimeline (fun _ => (5 : Int)) (burstTimeline 7 [0, 100, 650]) initDebounce).fired
      = [(7, ([(100 : ℚ), 650].getLastD 0) + DEBOUNCE_DELAY,
          (fun _ => (5 : Int)) (([(100 : ℚ), 650].getLastD 0) + DEBOUNCE_DELAY))] :=
  (debounce_coalescing (fun _ => (5 : Int)) 7 0 [100, 650]
    (by norm_num [List.chain'_cons, DEBOUNCE_DELAY])).1

/-- Firing due timers removes no tab from `fired`'s complement: if tab `T`
has no pending timer, it gains no fired pass and stays unpended. -/
theorem fireDue_no_pending (observe : ℚ → Int) (T : Nat) (now : ℚ)
    (s : DebounceState) (hs : ∀ p ∈ s.pending, p.1 ≠ T) :
    (∀ p ∈ (fireDue observe now s).pending, p.1 ≠ T)
    ∧ firedFor T (fireDue observe now s) = firedFor T s := by
  constructor
  · intro p hp
    exact hs p (List.mem_of_mem_filter hp)
  · have hnil :
        ((s.pending.filter fun p => decide (p.2 < now)).map
            (fun p => (p.1, p.2, observe p.2))).filter (fun f => f.1 == T) = [] := by
      apply List.filter_eq_nil_iff.mpr
      intro a ha
      rcases List.mem_map.mp ha with ⟨p, hp, hpa⟩
      have hne := hs p (List.mem_of_mem_filter hp)
      subst hpa
      simpa using hne
    simp [fireDue, firedFor, List.filter_append, hnil]

/-- A notification that is not a move for tab `T` neither pends nor fires
anything for `T`. -/
theorem stepEvent_no_pending (observe : ℚ → Int) (T : Nat) (s : DebounceState)
    (t : ℚ) (e : InEvent) (hs : ∀ p ∈ s.pending, p.1 ≠ T)
    (he : e ≠ InEvent.moved T) :
    (∀ p ∈ (stepEvent observe s t e).pending, p.1 ≠ T)
    ∧ firedFor T (stepEvent observe s t e) = firedFor T s := by
  rcases fireDue_no_pending observe T t s hs with ⟨hp1, hf1⟩
  cases e with
  | moved tabId =>
    have hTne : tabId ≠ T := by
      intro hEq
      exact he (by rw [hEq])
    constructor
    · intro p hp
      simp only [stepEvent, List.mem_cons] at hp
      rcases hp with hp | hp
      · rw [hp]; exact hTne
      · exact hp1 p (List.mem_of_mem_filter hp)
    · simpa [stepEvent, firedFor] using hf1
  | removed tabId =>
    constructor
    · intro p hp
      exact hp1 p (List.mem_of_mem_filter hp)
    · simpa [stepEvent, firedFor] using hf1

/-- Over a timeline with no move notification for `T`, a tab without a
pending timer never acquires one and never fires. -/
theorem procEvents_no_pending (observe : ℚ → Int) (T : Nat) :
    ∀ (evs : List (ℚ × InEvent)) (s : DebounceState),
      (∀ p ∈ s.pending, p.1 ≠ T) →
      (∀ q ∈ evs, q.2 ≠ InEvent.moved T) →
      (∀ p ∈ (procEvents observe evs s).pending, p.1 ≠ T)
      ∧ firedFor T (procEvents observe evs s) = firedFor T s := by
  intro evs
  induction evs with
  | nil => intro s hs _; exact ⟨hs, rfl⟩
  | cons q evs ih =>
    intro s hs hq
    have hqhead : q.2 ≠ InEvent.moved T := hq q (List.mem_cons_self q evs)
    rcases stepEvent_no_pending observe T s q.1 q.2 hs hqhead with ⟨hp1, hf1⟩
    have hqtail : ∀ r ∈ evs, r.2 ≠ InEvent.moved T := fun r hr =>
      hq r (List.mem_cons_of_mem q hr)
    rcases ih (stepEvent observe s q.1 q.2) hp1 hqtail with ⟨hp2, hf2⟩
    refine ⟨?_, ?_⟩
    · intro p hp
      apply hp2
      simpa [procEvents] using hp
    · calc firedFor T (procEvents observe (q :: evs) s)
          = firedFor T (procEvents observe evs (stepEvent observe s q.1 q.2)) := by
            simp [procEvents]
        _ = firedFor T (stepEvent observe s q.1 q.2) := hf2
        _ = firedFor T s := hf1

/-- The final flush fires nothing for a tab without a pending timer. -/
theorem flushAll_no_pending (observe : ℚ → Int) (T : Nat) (s : DebounceState)
    (hs : ∀ p ∈ s.pending, p.1 ≠ T) :
    firedFor T (flushAll observe s) = firedFor T s := by
  have hnil :
      (s.pending.map (fun p => (p.1, p.2, observe p.2))).filter (fun f => f.1 == T)
        = [] := by
    apply List.filter_eq_nil_iff.mpr
    intro a ha
    rcases List.mem_map.mp ha with ⟨p, hp, hpa⟩
    have hne := hs p hp
    subst hpa
    simpa using hne
  simp [flushAll, firedFor, List.filter_append, hnil]

/-- `procEvents` runs an appended timeline in two stages. -/
theorem procEvents_append (observe : ℚ → Int) (a b : List (ℚ × InEvent))
    (s : DebounceState) :
    procEvents observe (a ++ b) s = procEvents observe b (procEvents observe a s) := by
  simp [procEvents, List.foldl_append]

/-- `procEvents` peels its first notification. -/
theorem procEvents_cons (observe : ℚ → Int) (q : ℚ × InEvent)
    (evs : List (ℚ × InEvent)) (s : DebounceState) :
    procEvents observe (q :: evs) s
      = procEvents observe evs (stepEvent observe s q.1 q.2) := by
  simp [procEvents]

/-- C9: a removal notification for tab `T` arriving while `T`'s debounce
timer is still pending cancels it, and no classification pass ever fires
for `T` over the rest of the timeline (which contains no further move for
`T`); a removal for a tab with no pending entry changes nothing beyond
the timers that were due anyway. -/
theorem removal_cancels_debounce (observe : ℚ → Int) (T : Nat) (t0 : ℚ)
    (rest : List ℚ) (tr : ℚ) (evs2 : List (ℚ × InEvent))
    (hchain : List.Chain' (fun a b => a ≤ b ∧ b ≤ a + DEBOUNCE_DELAY) (t0 :: rest))
    (hr : tr ≤ rest.getLastD t0 + DEBOUNCE_DELAY)
    (hevs2 : ∀ q ∈ evs2, q.2 ≠ InEvent.moved T) :
    firedFor T (runTimeline observe
        (burstTimeline T (t0 :: rest) ++ (tr, InEvent.removed T) :: evs2)
        initDebounce) = []
    ∧ ∀ (s : DebounceState) (t : ℚ),
        s.pending.filter (fun p => p.1 == T) = [] →
        stepEvent observe s t (InEvent.removed T) = fireDue observe t s := by
  constructor
  · have hfirst : stepEvent observe initDebounce t0 (InEvent.moved T)
        = ⟨[(T, t0 + DEBOUNCE_DELAY)], []⟩ := by
      simp [stepEvent, fireDue, initDebounce]
    have hA : procEvents observe (burstTimeline T (t0 :: rest)) initDebounce
        = ⟨[(T, rest.getLastD t0 + DEBOUNCE_DELAY)], []⟩ := by
      have hhead : burstTimeline T (t0 :: rest)
          = (t0, InEvent.moved T) :: burstTimeline T rest := by
        simp [burstTimeline]
      rw [hhead, procEvents_cons]
      simpa [hfirst] using procEvents_burst observe T rest t0 [] hchain
    have hcancel : ∀ L : ℚ, tr ≤ L + DEBOUNCE_DELAY →
        stepEvent observe ⟨[(T, L + DEBOUNCE_DELAY)], []⟩ tr (InEvent.removed T)
          = initDebounce := by
      intro L hL
      simp [stepEvent, fireDue, initDebounce, not_lt.mpr hL]
    rw [runTimeline, procEvents_append, hA, procEvents_cons]
    rw [show ((tr, InEvent.removed T) : ℚ × InEvent).1 = tr from rfl,
      show ((tr, InEvent.removed T) : ℚ × InEvent).2 = InEvent.removed T from rfl,
      hcancel (rest.getLastD t0) hr]
    rcases procEvents_no_pending observe T evs2 initDebounce
        (by simp [initDebounce]) hevs2 with ⟨hp, hf⟩
    rw [flushAll_no_pending observe T _ hp, hf]
    simp [firedFor, initDebounce]
  · intro s t hfil
    have hnone : ∀ p ∈ (fireDue observe t s).pending, (p.1 != T) = true := by
      intro p hp
      have hmem := List.mem_of_mem_filter hp
      have hne := List.filter_eq_nil_iff.mp hfil p hmem
      simpa using hne
    have hcl : (fireDue observe t s).pending.filter (fun p => p.1 != T)
        = (fireDue observe t s).pending :=
      List.filter_eq_self.mpr hnone
    simp only [stepEvent, hcl]

/-- C9 witness: one move for tab 7 at time 0, its removal at time 300
(before the 600 deadline), then an unrelated move for tab 9 — tab 7 never
fires. -/
theorem removal_cancels_debounce_witness :
    firedFor 7 (runTimeline (fun _ => (2 : Int))
        (burstTimeline 7 [(0 : ℚ)]
          ++ ((300 : ℚ), InEvent.removed 7) :: [((400 : ℚ), InEvent.moved 9)])
        initDebounce) = [] :=
  (removal_cancels_debounce (fun _ => (2 : Int)) 7 0 [] 300
    [((400 : ℚ), InEvent.moved 9)] (by simp) (by norm_num [DEBOUNCE_DELAY])
    (by decide)).1

end MagneticShuttle
